import Mathlib

/-!
# Verification of the `rust-pdf` incremental PDF serializer

Shallow embedding of `src/src/lib.rs` (SimonSapin/rust-pdf).

The Rust code writes bytes to a `Write + Seek` sink and uses
`seek(SeekFrom::Current(0))` only to query the current position.  Since the
engine only ever appends, we model the sink as a list of bytes
(`List Nat`, each element a byte value) and the position query as the list
length.

The drawing callback passed to `render_page` is caller code whose only
possible side effect is appending bytes to the sink (through `Canvas`);
it may fail with an I/O error after having written some bytes.  We model it
by the byte list it appends (`drawBytes`) together with an optional error
code (`drawErr : Option Nat`; `none` means the callback returns `Ok(())`).

Rust `io::Error` values are modelled as `Nat` codes; a `panic!` caused by a
failed `assert!` is modelled as the distinguished error `PdfErr.panic`.
The engine's own writes (appends to a list) cannot fail in the model; the
claims under verification only concern callback-induced I/O failures and
the internal assertions.

Numeric formatting: the Rust code formats `usize`/`u64`/`i64` values with
`{}` (decimal) and `{:010}` (zero-padded decimal, used only after asserting
non-negativity); these are `Nat.repr` and `pad10` below.  Page geometry
(`width`, `height`) and rectangle coordinates are `f32` in Rust; every
claim instantiates them at integral values, for which Rust's `Display`
prints the plain integer numeral, so they are modelled as `Nat` rendered
with `Nat.repr`.
-/

/-- A byte of output. The writer emits ASCII text except for the four
binary-comment bytes in the header. -/
abbrev Byte := Nat

/-- Bytes of an ASCII string, as written by Rust `write!`. -/
def strABytes (s : String) : List Byte := s.data.map Char.toNat

/-- Rust `{:010}` formatting of a non-negative number: decimal digits,
left-padded with zeros to at least 10 characters. -/
def pad10 (n : Nat) : String :=
  String.mk (List.replicate (10 - (Nat.repr n).length) '0') ++ Nat.repr n

/-- Errors: an I/O error propagated from the drawing callback (with its
identity as a code), or a fatal `assert!`/`panic!`. -/
inductive PdfErr where
  | ioError (code : Nat)
  | panic
deriving Repr, DecidableEq

/-- The state owned by the Rust `Pdf` struct, plus the bytes written so far
to the output sink it exclusively owns. -/
structure Pdf where
  output : List Byte
  object_offsets : List Int
  page_objects_ids : List Nat
deriving Repr, DecidableEq

/-- `const ROOT_OBJECT_ID: usize = 1;` -/
def ROOT_OBJECT_ID : Nat := 1

/-- `const PAGES_OBJECT_ID: usize = 2;` -/
def PAGES_OBJECT_ID : Nat := 2

namespace Pdf

/-- Append raw bytes to the output sink. -/
def writeB (s : Pdf) (bs : List Byte) : Pdf :=
  { s with output := s.output ++ bs }

/-- One Rust `write!` of ASCII text. -/
def writeS (s : Pdf) (str : String) : Pdf :=
  s.writeB (strABytes str)

/-- `Pdf::tell`: current write position, i.e. bytes written so far. -/
def tell (s : Pdf) : Nat := s.output.length

/-- `Pdf::new`: writes the header `%PDF-1.7\n%\xB5\xED\xAE\xFB\n` and
reserves object ids 0 (free-list head), 1 (catalog) and 2 (page tree) with
sentinel offsets `-1`. -/
def new : Pdf :=
  { output := strABytes "%PDF-1.7\n%" ++ [0xB5, 0xED, 0xAE, 0xFB] ++ strABytes "\n",
    object_offsets := [-1, -1, -1],
    page_objects_ids := [] }

/-- `Pdf::write_object`: records the current position, writes the
`<id> 0 obj` header, runs the content writer, writes `endobj`, and returns
the content writer's result together with the recorded starting offset. -/
def write_object (id : Nat) (write_content : Pdf → Pdf × Except PdfErr T)
    (s : Pdf) : Pdf × Except PdfErr (T × Int) :=
  let offset : Int := s.tell
  let s := s.writeS (Nat.repr id ++ " 0 obj\n")
  match write_content s with
  | (s, .error e) => (s, .error e)
  | (s, .ok r) =>
    let s := s.writeS "endobj\n"
    (s, .ok (r, offset))

/-- `Pdf::write_new_object`: consumes the next unused id (the current
offset-table length), writes the object, then appends the recorded
starting offset to the table.  On error nothing is appended. -/
def write_new_object (write_content : Nat → Pdf → Pdf × Except PdfErr T)
    (s : Pdf) : Pdf × Except PdfErr T :=
  let id := s.object_offsets.length
  match write_object id (write_content id) s with
  | (s, .error e) => (s, .error e)
  | (s, .ok (r, offset)) =>
    ({ s with object_offsets := s.object_offsets ++ [offset] }, .ok r)

/-- `Pdf::write_object_with_id`: writes an object at a reserved id after
asserting that its slot still holds the sentinel `-1`, then stores the
recorded offset in that slot.  A failed assertion (slot missing or already
filled) is the fatal error `PdfErr.panic`. -/
def write_object_with_id (id : Nat) (write_content : Pdf → Pdf × Except PdfErr T)
    (s : Pdf) : Pdf × Except PdfErr T :=
  if s.object_offsets.get? id = some (-1) then
    match write_object id write_content s with
    | (s, .error e) => (s, .error e)
    | (s, .ok (r, offset)) =>
      ({ s with object_offsets := s.object_offsets.set id offset }, .ok r)
  else (s, .error .panic)

/-- `Pdf::render_page`: writes the content-stream object (recording the
stream byte count between the two `tell` calls), the length object (with
the fatal check `length_object_id == contents_object_id + 1`), and the page
object, then appends the page object id to the page list.  `drawBytes` and
`drawErr` model the drawing callback (see module docstring). -/
def render_page (width height : Nat) (drawBytes : List Byte) (drawErr : Option Nat)
    (s : Pdf) : Pdf × Except PdfErr Unit :=
  match write_new_object (fun contents_object_id s =>
      let s := s.writeS ("<<  /Length " ++ Nat.repr (contents_object_id + 1) ++ " 0 R\n")
      let s := s.writeS ">>\n"
      let s := s.writeS "stream\n"
      let start := s.tell
      let s := s.writeS "/DeviceRGB cs /DeviceRGB CS\n"
      let s := s.writeS ("0.75 0 0 -0.75 0 " ++ Nat.repr height ++ " cm\n")
      let s := s.writeB drawBytes
      match drawErr with
      | some code => (s, .error (.ioError code))
      | none =>
        let e := s.tell
        let s := s.writeS "endstream\n"
        (s, .ok (contents_object_id, e - start))) s with
  | (s, .error err) => (s, .error err)
  | (s, .ok (contents_object_id, content_length)) =>
    match write_new_object (fun length_object_id s =>
        if length_object_id = contents_object_id + 1 then
          (s.writeS (Nat.repr content_length ++ "\n"), .ok ())
        else (s, .error .panic)) s with
    | (s, .error err) => (s, .error err)
    | (s, .ok ()) =>
      match write_new_object (fun page_object_id s =>
          let s := s.writeS "<<  /Type /Page\n"
          let s := s.writeS ("    /Parent " ++ Nat.repr PAGES_OBJECT_ID ++ " 0 R\n")
          let s := s.writeS "    /Resources << >>\n"
          let s := s.writeS ("    /MediaBox [ 0 0 " ++ Nat.repr width ++ " " ++ Nat.repr height ++ " ]\n")
          let s := s.writeS ("    /Contents " ++ Nat.repr contents_object_id ++ " 0 R\n")
          let s := s.writeS ">>\n"
          (s, .ok page_object_id)) s with
      | (s, .error err) => (s, .error err)
      | (s, .ok page_object_id) =>
        ({ s with page_objects_ids := s.page_objects_ids ++ [page_object_id] }, .ok ())

/-- The `for &offset in &self.object_offsets[1..]` loop in `Pdf::finish`:
asserts each offset non-negative (else fatal panic) and writes its
10-digit zero-padded cross-reference line. -/
def writeXrefLines : List Int → Pdf → Pdf × Except PdfErr Unit
  | [], s => (s, .ok ())
  | o :: rest, s =>
    if 0 ≤ o then writeXrefLines rest (s.writeS (pad10 o.toNat ++ " 00000 n \n"))
    else (s, .error .panic)

/-- The `/Kids` loop body of `Pdf::finish`: one `<id> 0 R ` fragment per
page object id, concatenated in page-list order. -/
def kidsBytes (ids : List Nat) : List Byte :=
  ids.foldr (fun id acc => strABytes (Nat.repr id ++ " 0 R ") ++ acc) []

/-- `Pdf::finish`: writes the page-tree object at reserved id 2, the
catalog at reserved id 1, records `startxref`, and writes the
cross-reference section and trailer. -/
def finish (s : Pdf) : Pdf × Except PdfErr Unit :=
  match write_object_with_id PAGES_OBJECT_ID (fun s =>
      let s := s.writeS "<<  /Type /Pages\n"
      let s := s.writeS ("    /Count " ++ Nat.repr s.page_objects_ids.length ++ "\n")
      let s := s.writeS "    /Kids [ "
      let s := s.writeB (kidsBytes s.page_objects_ids)
      let s := s.writeS "]\n"
      let s := s.writeS ">>\n"
      (s, .ok ())) s with
  | (s, .error e) => (s, .error e)
  | (s, .ok ()) =>
    match write_object_with_id ROOT_OBJECT_ID (fun s =>
        let s := s.writeS "<<  /Type /Catalog\n"
        let s := s.writeS ("    /Pages " ++ Nat.repr PAGES_OBJECT_ID ++ " 0 R\n")
        let s := s.writeS ">>\n"
        (s, .ok ())) s with
    | (s, .error e) => (s, .error e)
    | (s, .ok ()) =>
      let startxref := s.tell
      let s := s.writeS "xref\n"
      let s := s.writeS ("0 " ++ Nat.repr s.object_offsets.length ++ "\n")
      let s := s.writeS "0000000000 65535 f \n"
      match writeXrefLines (s.object_offsets.drop 1) s with
      | (s, .error e) => (s, .error e)
      | (s, .ok ()) =>
        let s := s.writeS "trailer\n"
        let s := s.writeS ("<<  /Size " ++ Nat.repr s.object_offsets.length ++ "\n")
        let s := s.writeS ("    /Root " ++ Nat.repr ROOT_OBJECT_ID ++ " 0 R\n")
        let s := s.writeS ">>\n"
        let s := s.writeS "startxref\n"
        let s := s.writeS (Nat.repr startxref ++ "\n")
        let s := s.writeS "%%EOF\n"
        (s, .ok ())

end Pdf

namespace Canvas

/-- `Canvas::rectangle`: the bytes one call appends to the content stream.
Color components are `u8`; coordinates are integral `f32` values (see
module docstring on numeric formatting). -/
def rectangle (r g b : Nat) (x y width height : Nat) : List Byte :=
  strABytes (Nat.repr r ++ " " ++ Nat.repr g ++ " " ++ Nat.repr b ++ " sc "
    ++ Nat.repr x ++ " " ++ Nat.repr y ++ " " ++ Nat.repr width ++ " "
    ++ Nat.repr height ++ " re f\n")

end Canvas

/-- Geometry and callback behaviour of one `render_page` call whose drawing
callback succeeds. -/
structure PageSpec where
  width : Nat
  height : Nat
  draw : List Byte
deriving Repr, DecidableEq

/-- Geometry and callback behaviour of one `render_page` call whose drawing
callback may fail after writing `bytes`. -/
structure DrawSpec where
  width : Nat
  height : Nat
  bytes : List Byte
  err : Option Nat
deriving Repr, DecidableEq

/-- Run a sequence of `render_page` calls with succeeding callbacks,
stopping at the first error (as a caller using `?`/`try!` would). -/
def runPages : List PageSpec → Pdf → Pdf × Except PdfErr Unit
  | [], s => (s, .ok ())
  | p :: ps, s =>
    match Pdf.render_page p.width p.height p.draw none s with
    | (s1, .ok ()) => runPages ps s1
    | (s1, .error e) => (s1, .error e)

/-- Run a sequence of `render_page` calls whose callbacks may fail,
continuing past failures (the most general caller behaviour) and
collecting every call's result. -/
def runSteps : List DrawSpec → Pdf → Pdf × List (Except PdfErr Unit)
  | [], s => (s, [])
  | d :: ds, s =>
    match Pdf.render_page d.width d.height d.bytes d.err s with
    | (s1, r) =>
      match runSteps ds s1 with
      | (s2, rs) => (s2, r :: rs)

/-! ## Expected byte blocks

Pure descriptions of the byte runs the writer emits, used to state the
theorems.  Each is the concatenation of the `write!` calls of the
corresponding source region. -/
/-- The `<id> 0 obj\n` framing line that opens every indirect object. -/
def objHeader (id : Nat) : List Byte := strABytes (Nat.repr id ++ " 0 obj\n")

/-- The fixed content-stream preamble written before the drawing callback
runs: color-space selection and the Y-flipping transform. -/
def streamPre (h : Nat) : List Byte :=
  strABytes "/DeviceRGB cs /DeviceRGB CS\n"
    ++ strABytes ("0.75 0 0 -0.75 0 " ++ Nat.repr h ++ " cm\n")

/-- All bytes of the content-stream object with id `cid` for a page of
height `h` whose callback wrote `bs`. -/
def contentObjBytes (cid h : Nat) (bs : List Byte) : List Byte :=
  objHeader cid
    ++ strABytes ("<<  /Length " ++ Nat.repr (cid + 1) ++ " 0 R\n")
    ++ strABytes ">>\n" ++ strABytes "stream\n"
    ++ streamPre h ++ bs
    ++ strABytes "endstream\n" ++ strABytes "endobj\n"

/-- All bytes of the length object with id `lid` declaring stream length
`len`. -/
def lengthObjBytes (lid len : Nat) : List Byte :=
  objHeader lid ++ strABytes (Nat.repr len ++ "\n") ++ strABytes "endobj\n"

/-- All bytes of the page object with id `pid` referencing content object
`cid`. -/
def pageObjBytes (pid w h cid : Nat) : List Byte :=
  objHeader pid
    ++ strABytes "<<  /Type /Page\n"
    ++ strABytes ("    /Parent " ++ Nat.repr PAGES_OBJECT_ID ++ " 0 R\n")
    ++ strABytes "    /Resources << >>\n"
    ++ strABytes ("    /MediaBox [ 0 0 " ++ Nat.repr w ++ " " ++ Nat.repr h ++ " ]\n")
    ++ strABytes ("    /Contents " ++ Nat.repr cid ++ " 0 R\n")
    ++ strABytes ">>\n"
    ++ strABytes "endobj\n"

/-- All bytes one successful `render_page` call appends, given the first
consumed object id `cid`. -/
def pageTriple (cid w h : Nat) (bs : List Byte) : List Byte :=
  contentObjBytes cid h bs
    ++ lengthObjBytes (cid + 1) ((streamPre h).length + bs.length)
    ++ pageObjBytes (cid + 2) w h cid

/-- `pat` occurs in `out` starting at byte position `o`. -/
def bytesAt (out pat : List Byte) (o : Nat) : Prop :=
  (out.drop o).take pat.length = pat

instance (out pat : List Byte) (o : Nat) : Decidable (bytesAt out pat o) := by
  unfold bytesAt; infer_instance

/-- The bytes present of a content object whose drawing callback failed:
framing header, dictionary, `stream` delimiter, preamble and the callback's
partial output — but no `endstream`/`endobj` and no later objects. -/
def contentObjPartial (cid h : Nat) (bs : List Byte) : List Byte :=
  objHeader cid
    ++ strABytes ("<<  /Length " ++ Nat.repr (cid + 1) ++ " 0 R\n")
    ++ strABytes ">>\n" ++ strABytes "stream\n"
    ++ streamPre h ++ bs

/-- All bytes of the page-tree object for the given page-id list. -/
def pagesObjBytes (ids : List Nat) : List Byte :=
  objHeader PAGES_OBJECT_ID
    ++ strABytes "<<  /Type /Pages\n"
    ++ strABytes ("    /Count " ++ Nat.repr ids.length ++ "\n")
    ++ strABytes "    /Kids [ "
    ++ Pdf.kidsBytes ids
    ++ strABytes "]\n" ++ strABytes ">>\n" ++ strABytes "endobj\n"

/-- All bytes of the catalog object. -/
def catalogObjBytes : List Byte :=
  objHeader ROOT_OBJECT_ID
    ++ strABytes "<<  /Type /Catalog\n"
    ++ strABytes ("    /Pages " ++ Nat.repr PAGES_OBJECT_ID ++ " 0 R\n")
    ++ strABytes ">>\n" ++ strABytes "endobj\n"

/-- One 20-byte cross-reference entry line per offset, in table order. -/
def xrefLinesBytes (l : List Int) : List Byte :=
  l.foldr (fun o acc => strABytes (pad10 o.toNat ++ " 00000 n \n") ++ acc) []

/-- The cross-reference section: `xref`, the `0 <N>` subsection header, the
fixed free entry for object 0, and one line per object id from 1 on. -/
def xrefSectionBytes (offsets : List Int) : List Byte :=
  strABytes "xref\n"
    ++ strABytes ("0 " ++ Nat.repr offsets.length ++ "\n")
    ++ strABytes "0000000000 65535 f \n"
    ++ xrefLinesBytes (offsets.drop 1)

/-- The trailer for an `n`-object document whose xref starts at byte
`startxref`. -/
def trailerBytes (n startxref : Nat) : List Byte :=
  strABytes "trailer\n"
    ++ strABytes ("<<  /Size " ++ Nat.repr n ++ "\n")
    ++ strABytes ("    /Root " ++ Nat.repr ROOT_OBJECT_ID ++ " 0 R\n")
    ++ strABytes ">>\n" ++ strABytes "startxref\n"
    ++ strABytes (Nat.repr startxref ++ "\n") ++ strABytes "%%EOF\n"

/-- The object-id pattern whose position the cross-reference table must
record: the text `<id> 0 obj` (without the trailing newline). -/
def headerPat (id : Nat) : List Byte := strABytes (Nat.repr id ++ " 0 obj")

/-- Bookkeeping invariant holding after `new` and after every successful
`render_page`: the table has at least its three initial entries, slots 0,
1, 2 still hold the sentinel, and every later slot holds a non-negative
offset at which that object's `<id> 0 obj` header actually starts. -/
structure PdfInv (s : Pdf) : Prop where
  len3 : 3 ≤ s.object_offsets.length
  slot0 : s.object_offsets.get? 0 = some (-1)
  slot1 : s.object_offsets.get? 1 = some (-1)
  slot2 : s.object_offsets.get? 2 = some (-1)
  hdr : ∀ id o, s.object_offsets.get? id = some o → 3 ≤ id →
    0 ≤ o ∧ bytesAt s.output (headerPat id) o.toNat

/-- The bytes a run of successful pages appends, when the first page's
content object gets id `cid`. -/
def triplesBytes : List PageSpec → Nat → List Byte
  | [], _ => []
  | p :: ps, cid => pageTriple cid p.width p.height p.draw ++ triplesBytes ps (cid + 3)

/-- The page-object ids of `n` pages added when the offset table has
`len` entries: `len + 2, len + 5, ...`. -/
def pageIds (n len : Nat) : List Nat :=
  (List.range n).map (fun k => len + 3 * k + 2)

instance : DecidableEq (Except PdfErr Unit)
  | .ok (), .ok () => isTrue rfl
  | .ok (), .error _ => isFalse (by simp)
  | .error _, .ok () => isFalse (by simp)
  | .error a, .error b =>
    if h : a = b then isTrue (by rw [h]) else isFalse (by simp [h])

/-- The one-page scenario of C5: open, one 200×100 page whose callback
draws the single red rectangle, finish. -/
def onePageDoc : Pdf × Except PdfErr Unit :=
  Pdf.finish (Pdf.render_page 200 100 (Canvas.rectangle 255 0 0 10 10 50 50) none Pdf.new).1

/-! ## Basic lemmas -/
theorem strABytes_append (a b : String) :
    strABytes (a ++ b) = strABytes a ++ strABytes b := by
  simp [strABytes, String.data_append]

theorem bytesAt_len_le {out pat : List Byte} {o : Nat} (h : bytesAt out pat o) :
    pat.length ≤ out.length - o := by
  have hl := congrArg List.length h
  simpa [List.length_take, List.length_drop, inf_eq_left] using hl

/-- Occurrences survive appending more output. -/
theorem bytesAt_append_right {out pat : List Byte} {o : Nat} (more : List Byte)
    (h : bytesAt out pat o) : bytesAt (out ++ more) pat o := by
  have hp := bytesAt_len_le h
  unfold bytesAt at h ⊢
  rcases Nat.le_total o out.length with hle | hge
  · rw [List.drop_append_of_le_length hle,
      List.take_append_of_le_length (by simpa [List.length_drop] using hp)]
    exact h
  · have h0 : pat = [] := List.length_eq_zero.mp (by omega)
    subst h0
    simp

/-- A block just appended occurs at the old end of the output. -/
theorem bytesAt_append_self (out pat rest : List Byte) :
    bytesAt (out ++ (pat ++ rest)) pat out.length := by
  unfold bytesAt
  rw [List.drop_left, List.take_append_of_le_length (by simp)]
  simp

/-! ## Unfolding equations for `render_page` -/
/-- A successful `render_page` call appends exactly the three-object block,
records the three objects' starting offsets (consuming ids `len`, `len+1`,
`len+2` where `len` is the offset-table length), and appends the page
object's id to the page list.  The declared stream length is
`(streamPre h).length + bs.length`, the byte count between the two `tell`
calls. -/
theorem render_page_ok_eq (w h : Nat) (bs : List Byte) (s : Pdf) :
    Pdf.render_page w h bs none s =
      ({ output := s.output ++ pageTriple s.object_offsets.length w h bs,
         object_offsets := s.object_offsets ++
           [(s.output.length : Int),
            ((s.output.length + (contentObjBytes s.object_offsets.length h bs).length : Nat) : Int),
            ((s.output.length + (contentObjBytes s.object_offsets.length h bs).length
              + (lengthObjBytes (s.object_offsets.length + 1)
                  ((streamPre h).length + bs.length)).length : Nat) : Int)],
         page_objects_ids := s.page_objects_ids ++ [s.object_offsets.length + 2] },
       .ok ()) := by
  simp [Pdf.render_page, Pdf.write_new_object, Pdf.write_object, Pdf.writeS, Pdf.writeB,
    Pdf.tell, pageTriple, contentObjBytes, lengthObjBytes, pageObjBytes, objHeader, streamPre,
    strABytes_append, List.append_assoc, List.length_append,
    Nat.add_assoc, add_assoc, Nat.add_sub_add_left, Nat.add_sub_cancel_left]

/-- A `render_page` call whose drawing callback fails with error `c`
returns exactly that error; the output gains only the partial content
object, and neither the offset table nor the page list changes. -/
theorem render_page_err_eq (w h : Nat) (bs : List Byte) (c : Nat) (s : Pdf) :
    Pdf.render_page w h bs (some c) s =
      ({ s with output := s.output ++ contentObjPartial s.object_offsets.length h bs },
       .error (.ioError c)) := by
  simp [Pdf.render_page, Pdf.write_new_object, Pdf.write_object, Pdf.writeS, Pdf.writeB,
    Pdf.tell, contentObjPartial, objHeader, streamPre,
    strABytes_append, List.append_assoc]

/-- When every offset in the tail is non-negative, the xref entry loop
succeeds and writes exactly one line per offset. -/
theorem writeXrefLines_ok : ∀ (l : List Int) (s : Pdf), (∀ o ∈ l, 0 ≤ o) →
    Pdf.writeXrefLines l s = (s.writeB (xrefLinesBytes l), .ok ())
  | [], s, _ => by simp [Pdf.writeXrefLines, xrefLinesBytes, Pdf.writeB]
  | o :: rest, s, h => by
    have ho : 0 ≤ o := h o (List.mem_cons_self o rest)
    have hr := writeXrefLines_ok rest (s.writeS (pad10 o.toNat ++ " 00000 n \n"))
      (fun x hx => h x (List.mem_cons_of_mem o hx))
    simp only [Pdf.writeS, Pdf.writeB, xrefLinesBytes] at hr
    simp only [Pdf.writeXrefLines, if_pos ho, xrefLinesBytes, List.foldr_cons,
      Pdf.writeS, Pdf.writeB, List.append_assoc, hr]

/-- `finish` unfolding: when the two reserved slots still hold the sentinel
and every other slot from id 1 on is non-negative, `finish` succeeds; it
fills slot 2 with the page-tree object's offset and slot 1 with the
catalog's, and appends the two structural objects, the cross-reference
section generated from the final table, and the trailer. -/
theorem finish_ok_eq (s : Pdf)
    (h1 : s.object_offsets.get? 1 = some (-1))
    (h2 : s.object_offsets.get? 2 = some (-1))
    (hall : ∀ o ∈ ((s.object_offsets.set 2 ((s.output.length : Nat) : Int)).set 1
        (((s.output.length + (pagesObjBytes s.page_objects_ids).length : Nat) : Int))).drop 1,
        0 ≤ o) :
    Pdf.finish s =
      ({ output := s.output ++ pagesObjBytes s.page_objects_ids ++ catalogObjBytes
           ++ xrefSectionBytes ((s.object_offsets.set 2 ((s.output.length : Nat) : Int)).set 1
               (((s.output.length + (pagesObjBytes s.page_objects_ids).length : Nat) : Int)))
           ++ trailerBytes s.object_offsets.length
               (s.output.length + (pagesObjBytes s.page_objects_ids).length + catalogObjBytes.length),
         object_offsets := (s.object_offsets.set 2 ((s.output.length : Nat) : Int)).set 1
               (((s.output.length + (pagesObjBytes s.page_objects_ids).length : Nat) : Int)),
         page_objects_ids := s.page_objects_ids }, .ok ()) := by
  have h1s : (s.object_offsets.set 2 ((s.output.length : Nat) : Int)).get? 1 = some (-1) := by
    rw [List.get?_set_ne _ _ (by decide)]; exact h1
  simp only [Pdf.finish, Pdf.write_object_with_id, Pdf.write_object, Pdf.writeS, Pdf.writeB,
    Pdf.tell, PAGES_OBJECT_ID, ROOT_OBJECT_ID, h2, h1s, reduceIte, List.length_append,
    List.length_set, List.append_assoc, Nat.add_assoc]
  simp only [pagesObjBytes, objHeader, PAGES_OBJECT_ID, List.length_append, Nat.add_assoc] at hall
  rw [writeXrefLines_ok _ _ hall]
  simp [pagesObjBytes, catalogObjBytes, xrefSectionBytes, trailerBytes, xrefLinesBytes, objHeader,
    Pdf.writeB, PAGES_OBJECT_ID, ROOT_OBJECT_ID, strABytes_append, List.append_assoc,
    List.length_append, List.length_set, Nat.add_assoc]

theorem objHeader_split (id : Nat) :
    objHeader id = headerPat id ++ strABytes "\n" := by
  have h1 : strABytes " 0 obj\n" = strABytes " 0 obj" ++ strABytes "\n" := by decide
  simp [objHeader, headerPat, strABytes_append, h1, List.append_assoc,
    show (" 0 obj\n" : String) = " 0 obj" ++ "\n" from rfl]

theorem bytesAt_objHeader (pre post : List Byte) (id : Nat) :
    bytesAt (pre ++ (objHeader id ++ post)) (headerPat id) pre.length := by
  rw [objHeader_split, List.append_assoc]
  exact bytesAt_append_self _ _ _

theorem pdfInv_new : PdfInv Pdf.new := by
  refine ⟨by simp [Pdf.new], rfl, rfl, rfl, ?_⟩
  intro id o hid h3
  have : Pdf.new.object_offsets.get? id = none := by
    apply List.get?_eq_none.mpr
    simpa [Pdf.new] using h3
  rw [this] at hid
  exact Option.noConfusion hid

theorem bytesAt_start (pat rest : List Byte) : bytesAt (pat ++ rest) pat 0 := by
  simp [bytesAt]

theorem bytesAt_shift (pre : List Byte) {out pat : List Byte} {o : Nat}
    (h : bytesAt out pat o) : bytesAt (pre ++ out) pat (pre.length + o) := by
  unfold bytesAt at h ⊢
  rw [← List.drop_drop, List.drop_left]
  exact h

theorem headerAt_triple_0 (cid w h : Nat) (bs : List Byte) :
    bytesAt (pageTriple cid w h bs) (headerPat cid) 0 := by
  simp only [pageTriple, contentObjBytes, objHeader_split, List.append_assoc]
  exact bytesAt_start _ _

theorem headerAt_triple_1 (cid w h : Nat) (bs : List Byte) :
    bytesAt (pageTriple cid w h bs) (headerPat (cid + 1))
      (contentObjBytes cid h bs).length := by
  simp only [pageTriple, lengthObjBytes, objHeader_split, List.append_assoc]
  exact bytesAt_append_self _ _ _

theorem headerAt_triple_2 (cid w h : Nat) (bs : List Byte) :
    bytesAt (pageTriple cid w h bs) (headerPat (cid + 2))
      ((contentObjBytes cid h bs).length
        + (lengthObjBytes (cid + 1) ((streamPre h).length + bs.length)).length) := by
  have h2 : bytesAt (pageObjBytes (cid + 2) w h cid) (headerPat (cid + 2)) 0 := by
    simp only [pageObjBytes, objHeader_split, List.append_assoc]
    exact bytesAt_start _ _
  have hs := bytesAt_shift
    (contentObjBytes cid h bs ++ lengthObjBytes (cid + 1) ((streamPre h).length + bs.length)) h2
  simpa [pageTriple, List.append_assoc, List.length_append] using hs

theorem pdfInv_render (w hh : Nat) (bs : List Byte) {s : Pdf} (h : PdfInv s) :
    PdfInv (Pdf.render_page w hh bs none s).1 := by
  rw [render_page_ok_eq]
  have hlen := h.len3
  dsimp only
  refine ⟨?_, ?_, ?_, ?_, ?_⟩
  · simp only [List.length_append, List.length_cons, List.length_nil]; omega
  · rw [List.get?_append (by omega)]; exact h.slot0
  · rw [List.get?_append (by omega)]; exact h.slot1
  · rw [List.get?_append (by omega)]; exact h.slot2
  · intro id o hid h3
    by_cases hlt : id < s.object_offsets.length
    · rw [List.get?_append hlt] at hid
      obtain ⟨hnn, hb⟩ := h.hdr id o hid h3
      exact ⟨hnn, bytesAt_append_right _ hb⟩
    · push_neg at hlt
      rw [List.get?_append_right hlt] at hid
      have hk : id - s.object_offsets.length = 0 ∨ id - s.object_offsets.length = 1
          ∨ id - s.object_offsets.length = 2 ∨ 3 ≤ id - s.object_offsets.length := by omega
      rcases hk with hk | hk | hk | hk
      · rw [hk] at hid
        simp only [List.get?_cons_zero, Option.some.injEq] at hid
        have hideq : id = s.object_offsets.length := by omega
        subst hid
        subst hideq
        refine ⟨Int.natCast_nonneg _, ?_⟩
        rw [Int.toNat_natCast]
        have hb := bytesAt_shift s.output (headerAt_triple_0 s.object_offsets.length w hh bs)
        simpa using hb
      · rw [hk] at hid
        simp only [List.get?_cons_succ, List.get?_cons_zero, Option.some.injEq] at hid
        have hideq : id = s.object_offsets.length + 1 := by omega
        subst hid
        subst hideq
        refine ⟨Int.natCast_nonneg _, ?_⟩
        rw [Int.toNat_natCast]
        have hb := bytesAt_shift s.output (headerAt_triple_1 s.object_offsets.length w hh bs)
        simpa using hb
      · rw [hk] at hid
        simp only [List.get?_cons_succ, List.get?_cons_zero, Option.some.injEq] at hid
        have hideq : id = s.object_offsets.length + 2 := by omega
        subst hid
        subst hideq
        refine ⟨Int.natCast_nonneg _, ?_⟩
        rw [Int.toNat_natCast]
        have hb := bytesAt_shift s.output (headerAt_triple_2 s.object_offsets.length w hh bs)
        simpa [Nat.add_assoc] using hb
      · exfalso
        rw [List.get?_eq_none.mpr (by simp; omega)] at hid
        exact Option.noConfusion hid

theorem pageIds_succ (n len : Nat) :
    pageIds (n + 1) len = (len + 2) :: pageIds n (len + 3) := by
  unfold pageIds
  rw [List.range_succ_eq_map, List.map_cons, List.map_map]
  refine congrArg₂ _ (by norm_num) (List.map_congr_left (fun a _ => by simp [Function.comp]; omega))

theorem runPages_spec : ∀ (ps : List PageSpec) (s : Pdf),
    (runPages ps s).2 = .ok () ∧
    (runPages ps s).1.object_offsets.length = s.object_offsets.length + 3 * ps.length ∧
    (runPages ps s).1.page_objects_ids
      = s.page_objects_ids ++ pageIds ps.length s.object_offsets.length ∧
    (runPages ps s).1.output = s.output ++ triplesBytes ps s.object_offsets.length
  | [], s => by simp [runPages, pageIds, triplesBytes]
  | p :: ps, s => by
    have ih := runPages_spec ps (Pdf.render_page p.width p.height p.draw none s).1
    rw [render_page_ok_eq] at ih
    obtain ⟨ih1, ih2, ih3, ih4⟩ := ih
    simp only [runPages, render_page_ok_eq]
    dsimp only at ih1 ih2 ih3 ih4 ⊢
    refine ⟨ih1, ?_, ?_, ?_⟩
    · rw [ih2]
      simp only [List.length_append, List.length_cons, List.length_nil, List.length]
      omega
    · rw [ih3]
      simp only [List.length_append, List.length_cons, List.length_nil]
      rw [show s.object_offsets.length + (1 + 1 + 1) = s.object_offsets.length + 3 from by omega,
        pageIds_succ]
      simp [List.append_assoc]
    · rw [ih4]
      simp only [List.length_append, List.length_cons, List.length_nil]
      rw [show s.object_offsets.length + (1 + 1 + 1) = s.object_offsets.length + 3 from by omega]
      simp [triplesBytes, List.append_assoc]

theorem pdfInv_runPages : ∀ (ps : List PageSpec) (s : Pdf),
    PdfInv s → PdfInv (runPages ps s).1
  | [], s, h => by simpa [runPages] using h
  | p :: ps, s, h => by
    have h1 := pdfInv_render p.width p.height p.draw h
    rw [render_page_ok_eq] at h1
    simp only [runPages, render_page_ok_eq]
    exact pdfInv_runPages ps _ h1

theorem pdfInv_render_err (w hh : Nat) (bs : List Byte) (c : Nat) {s : Pdf} (h : PdfInv s) :
    PdfInv (Pdf.render_page w hh bs (some c) s).1 := by
  rw [render_page_err_eq]
  exact ⟨h.len3, h.slot0, h.slot1, h.slot2, fun id o hid h3 =>
    have hh2 := h.hdr id o hid h3
    ⟨hh2.1, bytesAt_append_right _ hh2.2⟩⟩

/-- An occurrence inside an occurrence is an occurrence. -/
theorem bytesAt_trans {out sub pat : List Byte} {x j : Nat}
    (h1 : bytesAt out sub x) (h2 : bytesAt sub pat j) : bytesAt out pat (x + j) := by
  have hp := bytesAt_len_le h2
  rcases Nat.le_total j sub.length with hj | hj
  · have hsub : out.drop x = sub ++ (out.drop x).drop sub.length := by
      conv_lhs => rw [← List.take_append_drop sub.length (out.drop x)]
      rw [h1]
    unfold bytesAt at h2 ⊢
    rw [← List.drop_drop, hsub, List.drop_append_of_le_length hj,
      List.take_append_of_le_length (by simp [List.length_drop]; omega)]
    exact h2
  · have h0 : pat = [] := List.length_eq_zero.mp (by omega)
    subst h0
    simp [bytesAt]

theorem xrefLinesBytes_line : ∀ (l : List Int) (i : Nat) (o : Int), l.get? i = some o →
    ∃ j, bytesAt (xrefLinesBytes l) (strABytes (pad10 o.toNat ++ " 00000 n \n")) j
  | a :: rest, 0, o, h => by
    simp only [List.get?_cons_zero, Option.some.injEq] at h
    subst h
    exact ⟨0, bytesAt_start _ _⟩
  | a :: rest, i + 1, o, h => by
    simp only [List.get?_cons_succ] at h
    obtain ⟨j, hj⟩ := xrefLinesBytes_line rest i o h
    exact ⟨(strABytes (pad10 a.toNat ++ " 00000 n \n")).length + j,
      bytesAt_shift _ hj⟩

/-- Under the invariant, every cross-reference entry from id 1 on is
non-negative once the two reserved slots are filled. -/
theorem pdfInv_hall {s : Pdf} (h : PdfInv s) (v1 v2 : Nat) :
    ∀ o ∈ ((s.object_offsets.set 2 ((v1 : Nat) : Int)).set 1 ((v2 : Nat) : Int)).drop 1,
      0 ≤ o := by
  intro o ho
  obtain ⟨i, hi⟩ := List.mem_iff_get?.mp ho
  rw [List.get?_drop] at hi
  have hk : 1 + i = 1 ∨ 1 + i = 2 ∨ 3 ≤ 1 + i := by omega
  rcases hk with hk | hk | hk
  · rw [hk, List.get?_set_eq, List.get?_set_ne _ _ (by decide), h.slot1] at hi
    simp only [Option.map_some, Option.some.injEq] at hi
    subst hi
    exact Int.natCast_nonneg v2
  · rw [hk, List.get?_set_ne _ _ (by decide), List.get?_set_eq, h.slot2] at hi
    simp only [Option.map_some, Option.some.injEq] at hi
    subst hi
    exact Int.natCast_nonneg v1
  · rw [List.get?_set_ne _ _ (by omega), List.get?_set_ne _ _ (by omega)] at hi
    exact (h.hdr (1 + i) o hi hk).1

/-- Post-`finish` facts under the invariant: success, a closed form of the
final output, and a correct header position for every id from 1 on. -/
theorem finish_inv {s : Pdf} (h : PdfInv s) :
    (Pdf.finish s).2 = .ok () ∧
    (Pdf.finish s).1.object_offsets.length = s.object_offsets.length ∧
    (Pdf.finish s).1.output = s.output ++ pagesObjBytes s.page_objects_ids ++ catalogObjBytes
      ++ xrefSectionBytes (Pdf.finish s).1.object_offsets
      ++ trailerBytes s.object_offsets.length
          (s.output.length + (pagesObjBytes s.page_objects_ids).length + catalogObjBytes.length) ∧
    (Pdf.finish s).1.page_objects_ids = s.page_objects_ids ∧
    ∀ id o, 1 ≤ id → (Pdf.finish s).1.object_offsets.get? id = some o →
      0 ≤ o ∧ bytesAt (Pdf.finish s).1.output (headerPat id) o.toNat := by
  have heq := finish_ok_eq s h.slot1 h.slot2
    (pdfInv_hall h s.output.length (s.output.length + (pagesObjBytes s.page_objects_ids).length))
  rw [heq]
  dsimp only
  refine ⟨rfl, by simp [List.length_set], rfl, rfl, ?_⟩
  intro id o h1 hid
  have hk : id = 1 ∨ id = 2 ∨ 3 ≤ id := by omega
  rcases hk with hk | hk | hk
  · subst hk
    rw [List.get?_set_eq, List.get?_set_ne _ _ (by decide), h.slot1] at hid
    simp only [Option.map_some, Option.some.injEq] at hid
    subst hid
    refine ⟨Int.natCast_nonneg _, ?_⟩
    rw [Int.toNat_natCast]
    have hc : bytesAt (catalogObjBytes
          ++ (xrefSectionBytes ((s.object_offsets.set 2 ((s.output.length : Nat) : Int)).set 1
                (((s.output.length + (pagesObjBytes s.page_objects_ids).length : Nat) : Int)))
            ++ trailerBytes s.object_offsets.length
              (s.output.length + (pagesObjBytes s.page_objects_ids).length
                + catalogObjBytes.length)))
        (headerPat 1) 0 := by
      simp only [catalogObjBytes, ROOT_OBJECT_ID, objHeader_split, List.append_assoc]
      exact bytesAt_start _ _
    have hs := bytesAt_shift s.output (bytesAt_shift (pagesObjBytes s.page_objects_ids) hc)
    simpa [List.append_assoc] using hs
  · subst hk
    rw [List.get?_set_ne _ _ (by decide), List.get?_set_eq, h.slot2] at hid
    simp only [Option.map_some, Option.some.injEq] at hid
    subst hid
    refine ⟨Int.natCast_nonneg _, ?_⟩
    rw [Int.toNat_natCast]
    have hc : bytesAt (pagesObjBytes s.page_objects_ids ++ (catalogObjBytes
          ++ (xrefSectionBytes ((s.object_offsets.set 2 ((s.output.length : Nat) : Int)).set 1
                (((s.output.length + (pagesObjBytes s.page_objects_ids).length : Nat) : Int)))
            ++ trailerBytes s.object_offsets.length
              (s.output.length + (pagesObjBytes s.page_objects_ids).length
                + catalogObjBytes.length))))
        (headerPat 2) 0 := by
      simp only [pagesObjBytes, PAGES_OBJECT_ID, objHeader_split, List.append_assoc]
      exact bytesAt_start _ _
    have hs := bytesAt_shift s.output hc
    simpa [List.append_assoc] using hs
  · rw [List.get?_set_ne _ _ (by omega), List.get?_set_ne _ _ (by omega)] at hid
    obtain ⟨hnn, hb⟩ := h.hdr id o hid hk
    refine ⟨hnn, ?_⟩
    have hs := bytesAt_append_right (pagesObjBytes s.page_objects_ids ++ (catalogObjBytes
          ++ (xrefSectionBytes ((s.object_offsets.set 2 ((s.output.length : Nat) : Int)).set 1
                (((s.output.length + (pagesObjBytes s.page_objects_ids).length : Nat) : Int)))
            ++ trailerBytes s.object_offsets.length
              (s.output.length + (pagesObjBytes s.page_objects_ids).length
                + catalogObjBytes.length)))) hb
    simpa [List.append_assoc] using hs

theorem bytesAt_end (pre pat : List Byte) : bytesAt (pre ++ pat) pat pre.length := by
  unfold bytesAt
  rw [List.drop_left]
  exact List.take_length _

theorem render_page_no_panic (w h : Nat) (bs : List Byte) (e : Option Nat) (s : Pdf) :
    (Pdf.render_page w h bs e s).2 ≠ .error PdfErr.panic := by
  cases e with
  | none => rw [render_page_ok_eq]; simp
  | some c => rw [render_page_err_eq]; simp

theorem runSteps_cons (d : DrawSpec) (ds : List DrawSpec) (s : Pdf) :
    runSteps (d :: ds) s
      = ((runSteps ds (Pdf.render_page d.width d.height d.bytes d.err s).1).1,
         (Pdf.render_page d.width d.height d.bytes d.err s).2
           :: (runSteps ds (Pdf.render_page d.width d.height d.bytes d.err s).1).2) := by
  rcases hre : Pdf.render_page d.width d.height d.bytes d.err s with ⟨s1, r⟩
  rcases hrs : runSteps ds s1 with ⟨s2, rs⟩
  simp [runSteps, hre, hrs]

theorem runSteps_inv : ∀ (ds : List DrawSpec) (s : Pdf), PdfInv s →
    PdfInv (runSteps ds s).1 ∧ ∀ r ∈ (runSteps ds s).2, r ≠ .error PdfErr.panic
  | [], s, h => by
    refine ⟨by simpa [runSteps] using h, ?_⟩
    intro r hr
    simp [runSteps] at hr
  | d :: ds, s, h => by
    rw [runSteps_cons]
    have h1 : PdfInv (Pdf.render_page d.width d.height d.bytes d.err s).1 := by
      cases herr : d.err with
      | none => exact pdfInv_render d.width d.height d.bytes h
      | some c => exact pdfInv_render_err d.width d.height d.bytes c h
    have ih := runSteps_inv ds _ h1
    refine ⟨ih.1, ?_⟩
    intro r hr
    rcases List.mem_cons.mp hr with rfl | hr2
    · exact render_page_no_panic d.width d.height d.bytes d.err s
    · exact ih.2 r hr2

theorem pageObj_at_triple (cid w h : Nat) (bs : List Byte) :
    bytesAt (pageTriple cid w h bs) (pageObjBytes (cid + 2) w h cid)
      ((contentObjBytes cid h bs).length
        + (lengthObjBytes (cid + 1) ((streamPre h).length + bs.length)).length) := by
  have hb := bytesAt_end
    (contentObjBytes cid h bs ++ lengthObjBytes (cid + 1) ((streamPre h).length + bs.length))
    (pageObjBytes (cid + 2) w h cid)
  simpa [pageTriple, List.append_assoc, List.length_append] using hb

theorem contentLen_at_triple (cid w h : Nat) (bs : List Byte) :
    bytesAt (pageTriple cid w h bs)
      (contentObjBytes cid h bs
        ++ lengthObjBytes (cid + 1) ((streamPre h).length + bs.length)) 0 := by
  have hb := bytesAt_start
    (contentObjBytes cid h bs ++ lengthObjBytes (cid + 1) ((streamPre h).length + bs.length))
    (pageObjBytes (cid + 2) w h cid)
  simpa [pageTriple, List.append_assoc] using hb

theorem triplesBytes_pageObj : ∀ (ps : List PageSpec) (cid k : Nat) (hk : k < ps.length),
    ∃ j, bytesAt (triplesBytes ps cid)
      (pageObjBytes (cid + 3 * k + 2) (ps.get ⟨k, hk⟩).width (ps.get ⟨k, hk⟩).height
        (cid + 3 * k)) j
  | p :: ps, cid, 0, hk => by
    have hb := bytesAt_append_right (triplesBytes ps (cid + 3))
      (pageObj_at_triple cid p.width p.height p.draw)
    refine ⟨(contentObjBytes cid p.height p.draw).length
      + (lengthObjBytes (cid + 1) ((streamPre p.height).length + p.draw.length)).length, ?_⟩
    simpa [triplesBytes] using hb
  | p :: ps, cid, k + 1, hk => by
    obtain ⟨j, hj⟩ := triplesBytes_pageObj ps (cid + 3) k (Nat.lt_of_succ_lt_succ hk)
    have hs := bytesAt_shift (pageTriple cid p.width p.height p.draw) hj
    rw [show cid + 3 + 3 * k = cid + 3 * (k + 1) from by ring] at hs
    exact ⟨_, hs⟩

/-- C1: for every object id in `[1, N)` (`N` the offset-table length when
`finish` writes the cross-reference section), the table records a
non-negative offset `o`, the text `<id> 0 obj` actually begins at byte `o`
of the output, and the 10-digit zero-padded line `pad10 o ++ " 00000 n \n"`
generated from that table entry (see `xrefSectionBytes`, which the output
provably contains) appears in the output. -/
theorem C1_xref_offsets (ps : List PageSpec) :
    (runPages ps Pdf.new).2 = .ok () ∧
    (Pdf.finish (runPages ps Pdf.new).1).2 = .ok () ∧
    (∃ x, bytesAt (Pdf.finish (runPages ps Pdf.new).1).1.output
      (xrefSectionBytes (Pdf.finish (runPages ps Pdf.new).1).1.object_offsets) x) ∧
    ∀ id, 1 ≤ id → id < (Pdf.finish (runPages ps Pdf.new).1).1.object_offsets.length →
      ∃ o : Nat,
        (Pdf.finish (runPages ps Pdf.new).1).1.object_offsets.get? id = some ((o : Nat) : Int) ∧
        bytesAt (Pdf.finish (runPages ps Pdf.new).1).1.output (headerPat id) o ∧
        ∃ j, bytesAt (Pdf.finish (runPages ps Pdf.new).1).1.output
          (strABytes (pad10 o ++ " 00000 n \n")) j := by
  have hinv := pdfInv_runPages ps Pdf.new pdfInv_new
  obtain ⟨hok, hlen, hout, hpg, hhdr⟩ := finish_inv hinv
  obtain ⟨hr1, _, _, _⟩ := runPages_spec ps Pdf.new
  have hxfull : bytesAt (Pdf.finish (runPages ps Pdf.new).1).1.output
      (xrefSectionBytes (Pdf.finish (runPages ps Pdf.new).1).1.object_offsets)
      ((runPages ps Pdf.new).1.output.length
        + ((pagesObjBytes (runPages ps Pdf.new).1.page_objects_ids).length
          + (catalogObjBytes.length + 0))) := by
    rw [hout, List.append_assoc, List.append_assoc, List.append_assoc]
    exact bytesAt_shift _ (bytesAt_shift _ (bytesAt_shift _ (bytesAt_start _ _)))
  refine ⟨hr1, hok, ⟨_, hxfull⟩, ?_⟩
  intro id h1 hidlt
  obtain ⟨o, ho⟩ : ∃ o, (Pdf.finish (runPages ps Pdf.new).1).1.object_offsets.get? id
      = some o := ⟨_, List.get?_eq_get hidlt⟩
  obtain ⟨hnn, hb⟩ := hhdr id o h1 ho
  refine ⟨o.toNat, ?_, hb, ?_⟩
  · rw [ho, Int.toNat_of_nonneg hnn]
  · have hdrop : ((Pdf.finish (runPages ps Pdf.new).1).1.object_offsets.drop 1).get? (id - 1)
        = some o := by
      rw [List.get?_drop, show 1 + (id - 1) = id from by omega]
      exact ho
    obtain ⟨j0, hj0⟩ := xrefLinesBytes_line _ (id - 1) o hdrop
    have hinx : bytesAt
        (xrefSectionBytes (Pdf.finish (runPages ps Pdf.new).1).1.object_offsets)
        (strABytes (pad10 o.toNat ++ " 00000 n \n"))
        ((strABytes "xref\n").length
          + ((strABytes ("0 "
              ++ Nat.repr (Pdf.finish (runPages ps Pdf.new).1).1.object_offsets.length
              ++ "\n")).length
            + ((strABytes "0000000000 65535 f \n").length + j0))) := by
      unfold xrefSectionBytes
      rw [List.append_assoc, List.append_assoc]
      exact bytesAt_shift _ (bytesAt_shift _ (bytesAt_shift _ hj0))
    exact ⟨_, bytesAt_trans hxfull hinx⟩

/-- C2: a successful `render_page` writes, as the body of the length object
(the object `cid + 1` referenced by the content dictionary's `/Length`),
the decimal numeral of `(streamPre height).length + drawBytes.length` —
exactly the bytes appended between the two recorded positions: the fixed
preamble plus everything the callback wrote (`lengthObjBytes` renders
`Nat.repr` of that count).  Holds for arbitrary callback output, including
`[]` and multi-kilobyte lists. -/
theorem C2_stream_length (w h : Nat) (bs : List Byte) (s : Pdf) :
    Pdf.render_page w h bs none s =
      ({ output := s.output ++ contentObjBytes s.object_offsets.length h bs
           ++ lengthObjBytes (s.object_offsets.length + 1) ((streamPre h).length + bs.length)
           ++ pageObjBytes (s.object_offsets.length + 2) w h s.object_offsets.length,
         object_offsets := s.object_offsets ++
           [((s.output.length : Nat) : Int),
            ((s.output.length + (contentObjBytes s.object_offsets.length h bs).length : Nat) : Int),
            ((s.output.length + (contentObjBytes s.object_offsets.length h bs).length
              + (lengthObjBytes (s.object_offsets.length + 1)
                  ((streamPre h).length + bs.length)).length : Nat) : Int)],
         page_objects_ids := s.page_objects_ids ++ [s.object_offsets.length + 2] },
       .ok ()) := by
  rw [render_page_ok_eq]
  simp [pageTriple, List.append_assoc]

/-- C3: for every page sequence the final document contains the page-tree
object generated from the recorded page list (`pagesObjBytes` renders
`/Count <n>` and `/Kids [ <id> 0 R ... ]` in list order), the list has one
id per `render_page` call in call order, and with zero pages `finish`
succeeds and emits `/Count 0` and `/Kids [ ]` verbatim. -/
theorem C3_page_tree :
    (∀ ps : List PageSpec,
      (runPages ps Pdf.new).2 = .ok () ∧
      (Pdf.finish (runPages ps Pdf.new).1).2 = .ok () ∧
      (runPages ps Pdf.new).1.page_objects_ids.length = ps.length ∧
      (runPages ps Pdf.new).1.page_objects_ids = pageIds ps.length 3 ∧
      ∃ j, bytesAt (Pdf.finish (runPages ps Pdf.new).1).1.output
        (pagesObjBytes (runPages ps Pdf.new).1.page_objects_ids) j) ∧
    bytesAt (Pdf.finish (runPages ([] : List PageSpec) Pdf.new).1).1.output
      (strABytes "2 0 obj\n<<  /Type /Pages\n    /Count 0\n    /Kids [ ]\n>>\nendobj\n") 15 := by
  constructor
  · intro ps
    have hinv := pdfInv_runPages ps Pdf.new pdfInv_new
    obtain ⟨hok, _, hout, _, _⟩ := finish_inv hinv
    obtain ⟨hr1, _, hr3, _⟩ := runPages_spec ps Pdf.new
    have hpgs : (runPages ps Pdf.new).1.page_objects_ids = pageIds ps.length 3 := by
      rw [hr3]
      simp [Pdf.new]
    refine ⟨hr1, hok, ?_, hpgs, ?_⟩
    · rw [hpgs]
      simp [pageIds]
    · refine ⟨(runPages ps Pdf.new).1.output.length + 0, ?_⟩
      rw [hout, List.append_assoc, List.append_assoc, List.append_assoc]
      exact bytesAt_shift _ (bytesAt_start _ _)
  · decide

/-- C4: the length-object id check `length_object_id == contents_object_id
+ 1` never fails: every successful `render_page` emits the content object
and the length object back to back (the pattern `contentObjBytes cid ...
++ lengthObjBytes (cid + 1) ...`, whose dictionary references `cid + 1`,
occurs as one contiguous run), and in every run of `new`, any
`render_page` calls (succeeding or failing), then `finish`, no call ever
returns the fatal `PdfErr.panic`. -/
theorem C4_length_id_check :
    (∀ (w h : Nat) (bs : List Byte) (s : Pdf), ∃ j,
      bytesAt ((Pdf.render_page w h bs none s).1).output
        (contentObjBytes s.object_offsets.length h bs
          ++ lengthObjBytes (s.object_offsets.length + 1)
              ((streamPre h).length + bs.length)) j) ∧
    (∀ ds : List DrawSpec,
      (∀ r ∈ (runSteps ds Pdf.new).2, r ≠ .error PdfErr.panic) ∧
      (Pdf.finish (runSteps ds Pdf.new).1).2 ≠ .error PdfErr.panic) := by
  constructor
  · intro w h bs s
    rw [render_page_ok_eq]
    have hs := bytesAt_shift s.output (contentLen_at_triple s.object_offsets.length w h bs)
    exact ⟨_, hs⟩
  · intro ds
    have h := runSteps_inv ds Pdf.new pdfInv_new
    refine ⟨h.2, ?_⟩
    obtain ⟨hok, _, _, _, _⟩ := finish_inv h.1
    rw [hok]
    simp

set_option maxRecDepth 20000 in
/-- C5 counterexample: in the one-page scenario the cross-reference table
has 6 entries, not 4, and the section at `startxref = 411` reads
`xref\n0 6\n` — the subsection header is `0 6`, not `0 4`. -/
theorem C5_counterexample :
    onePageDoc.1.object_offsets.length = 6 ∧
    ¬ onePageDoc.1.object_offsets.length = 4 ∧
    bytesAt onePageDoc.1.output (strABytes "xref\n0 6\n") 411 ∧
    bytesAt onePageDoc.1.output (strABytes "startxref\n411\n%%EOF\n") 579 := by
  exact ⟨by decide, by decide, by decide, by decide⟩

set_option maxRecDepth 20000 in
/-- C5 amended: the cross-reference section of the one-page document lists
exactly 6 objects, ids 0 through 5 (subsection header `0 6`, the free
entry for id 0, and five in-use entry lines with the objects' true
offsets). -/
theorem C5_six_objects :
    onePageDoc.2 = .ok () ∧
    onePageDoc.1.object_offsets.length = 6 ∧
    bytesAt onePageDoc.1.output
      (strABytes ("xref\n0 6\n0000000000 65535 f \n0000000357 00000 n \n0000000289 00000 n \n"
        ++ "0000000015 00000 n \n0000000148 00000 n \n0000000166 00000 n \ntrailer\n")) 411 :=
  ⟨rfl, by decide, by decide⟩

set_option maxRecDepth 20000 in
/-- C6 counterexample: `write_new_object` appends no sentinel.  After `new`
and a `render_page` whose callback fails, the consumed id 3 was written to
the output (its header starts at byte 15) yet the offset table still has
no entry for id 3 at all — not the sentinel `-1` the claim asserts. -/
theorem C6_counterexample :
    (Pdf.render_page 200 100 [] (some 7) Pdf.new).1.object_offsets.get? 3 ≠ some (-1) ∧
    (Pdf.render_page 200 100 [] (some 7) Pdf.new).1.object_offsets = [-1, -1, -1] ∧
    bytesAt (Pdf.render_page 200 100 [] (some 7) Pdf.new).1.output (headerPat 3) 15 := by
  exact ⟨by decide, by decide, by decide⟩

/-- C6 amended: every call that starts a new indirect object consumes the
next unused id (the current offset-table length, hence strictly
increasing), and the table is extended only after the object's content is
written, directly with the object's true starting offset; no sentinel is
ever appended for such ids, and if the content-writing step fails with an
I/O error the table is left unchanged, holding no entry for the consumed
id. -/
theorem C6_offsets_appended_after :
    (∀ (w h : Nat) (bs : List Byte) (s : Pdf),
      (Pdf.render_page w h bs none s).1.object_offsets
        = s.object_offsets ++
          [((s.output.length : Nat) : Int),
           ((s.output.length + (contentObjBytes s.object_offsets.length h bs).length : Nat) : Int),
           ((s.output.length + (contentObjBytes s.object_offsets.length h bs).length
             + (lengthObjBytes (s.object_offsets.length + 1)
                 ((streamPre h).length + bs.length)).length : Nat) : Int)]) ∧
    (∀ (w h : Nat) (bs : List Byte) (c : Nat) (s : Pdf),
      (Pdf.render_page w h bs (some c) s).1.object_offsets = s.object_offsets) := by
  constructor
  · intro w h bs s
    rw [render_page_ok_eq]
  · intro w h bs c s
    rw [render_page_err_eq]

/-- C7: after any successful run, slots 1 and 2 still hold the sentinel
when `finish` starts (so its two reserved-id writes pass their assertion
and each reserved id is written exactly once), `finish` succeeds (so the
non-negativity assertion in the cross-reference loop never fires), and
every table entry from id 1 on is a non-negative offset afterwards. -/
theorem C7_finish_assertions (ps : List PageSpec) :
    (runPages ps Pdf.new).1.object_offsets.get? 1 = some (-1) ∧
    (runPages ps Pdf.new).1.object_offsets.get? 2 = some (-1) ∧
    (Pdf.finish (runPages ps Pdf.new).1).2 = .ok () ∧
    ∀ id o, 1 ≤ id →
      (Pdf.finish (runPages ps Pdf.new).1).1.object_offsets.get? id = some o → 0 ≤ o := by
  have hinv := pdfInv_runPages ps Pdf.new pdfInv_new
  obtain ⟨hok, _, _, _, hhdr⟩ := finish_inv hinv
  exact ⟨hinv.slot1, hinv.slot2, hok, fun id o h1 ho => (hhdr id o h1 ho).1⟩

/-- C8: when the drawing callback fails with I/O error `c`, `render_page`
returns exactly that error; the output gains only the partial content
object (header, dictionary, `stream`, preamble and the callback's bytes —
no `endstream`, no length object, no page object), the offset table is
unchanged and the page list is unchanged. -/
theorem C8_draw_error_propagates (w h : Nat) (bs : List Byte) (c : Nat) (s : Pdf) :
    Pdf.render_page w h bs (some c) s
      = ({ s with output := s.output ++ contentObjPartial s.object_offsets.length h bs },
         .error (.ioError c)) :=
  render_page_err_eq w h bs c s

/-- C9: `Canvas::rectangle` writes the single instruction run
`<r> <g> <b> sc <x> <y> <w> <h> re f\n` (color set, rectangle path, fill);
for `(255, 0, 0, 10, 10, 50, 50)` the bytes are exactly the literal
`255 0 0 sc 10 10 50 50 re f` plus newline. -/
theorem C9_rectangle_bytes :
    (∀ r g b x y w h : Nat, Canvas.rectangle r g b x y w h
      = strABytes (Nat.repr r ++ " " ++ Nat.repr g ++ " " ++ Nat.repr b ++ " sc "
          ++ Nat.repr x ++ " " ++ Nat.repr y ++ " " ++ Nat.repr w ++ " "
          ++ Nat.repr h ++ " re f\n")) ∧
    Canvas.rectangle 255 0 0 10 10 50 50 = strABytes "255 0 0 sc 10 10 50 50 re f\n" :=
  ⟨fun _ _ _ _ _ _ _ => rfl, by decide⟩

/-- C10: after `n` successful pages the offset table has `3n + 3` entries,
the page list is `[5, 8, ..., 3n + 2]` (the k-th page object id is
`3k + 5`), and each page object's `/Contents` references its own id minus
2 (`pageObjBytes pid _ _ cid` renders `/Contents cid 0 R`; here
`cid = pid - 2 = 3k + 3`, the page's content-object id). -/
theorem C10_id_arithmetic (ps : List PageSpec) :
    (runPages ps Pdf.new).2 = .ok () ∧
    (runPages ps Pdf.new).1.object_offsets.length = 3 * ps.length + 3 ∧
    (runPages ps Pdf.new).1.page_objects_ids
      = (List.range ps.length).map (fun k => 3 * k + 5) ∧
    ∀ k, (hk : k < ps.length) → ∃ j,
      bytesAt (runPages ps Pdf.new).1.output
        (pageObjBytes (3 * k + 5) (ps.get ⟨k, hk⟩).width (ps.get ⟨k, hk⟩).height
          (3 * k + 5 - 2)) j := by
  obtain ⟨h1, h2, h3, h4⟩ := runPages_spec ps Pdf.new
  refine ⟨h1, ?_, ?_, ?_⟩
  · rw [h2]
    simp [Pdf.new]
    omega
  · rw [h3]
    simp only [Pdf.new, List.length_cons, List.length_nil, List.nil_append, pageIds]
    exact List.map_congr_left (fun a _ => by omega)
  · intro k hk
    obtain ⟨j, hj⟩ := triplesBytes_pageObj ps 3 k hk
    have h4a : (runPages ps Pdf.new).1.output = Pdf.new.output ++ triplesBytes ps 3 := h4
    rw [h4a]
    have hs := bytesAt_shift Pdf.new.output hj
    rw [show (3 : Nat) + 3 * k = 3 * k + 5 - 2 from by omega,
      show (3 * k + 5 - 2) + 2 = 3 * k + 5 from by omega] at hs
    exact ⟨_, hs⟩

set_option maxRecDepth 20000 in
/-- Witness for C1 at the concrete one-page document and id 3: the content
object's recorded offset is a real header position and its xref line
occurs in the output. -/
theorem C1_xref_offsets_witness :
    (1 ≤ 3 ∧
      3 < (Pdf.finish (runPages [⟨200, 100, Canvas.rectangle 255 0 0 10 10 50 50⟩]
            Pdf.new).1).1.object_offsets.length) ∧
    ∃ o : Nat,
      (Pdf.finish (runPages [⟨200, 100, Canvas.rectangle 255 0 0 10 10 50 50⟩]
          Pdf.new).1).1.object_offsets.get? 3 = some ((o : Nat) : Int) ∧
      bytesAt (Pdf.finish (runPages [⟨200, 100, Canvas.rectangle 255 0 0 10 10 50 50⟩]
          Pdf.new).1).1.output (headerPat 3) o ∧
      ∃ j, bytesAt (Pdf.finish (runPages [⟨200, 100, Canvas.rectangle 255 0 0 10 10 50 50⟩]
          Pdf.new).1).1.output (strABytes (pad10 o ++ " 00000 n \n")) j :=
  ⟨⟨by decide, by decide⟩,
    (C1_xref_offsets [⟨200, 100, Canvas.rectangle 255 0 0 10 10 50 50⟩]).2.2.2 3
      (by decide) (by decide)⟩

/-- Witness for C4 at a concrete failing run: the recorded result is the
propagated I/O error, not a panic. -/
theorem C4_length_id_check_witness :
    Except.error (PdfErr.ioError 7) ∈ (runSteps [⟨200, 100, [], some 7⟩] Pdf.new).2 ∧
    Except.error (PdfErr.ioError 7) ≠ (Except.error PdfErr.panic : Except PdfErr Unit) :=
  ⟨by decide, (C4_length_id_check.2 [⟨200, 100, [], some 7⟩]).1 _ (by decide)⟩

/-- Witness for C7 at the empty document and id 1: the catalog's final
recorded offset (byte 77) is non-negative. -/
theorem C7_finish_assertions_witness :
    (1 ≤ 1 ∧
      (Pdf.finish (runPages ([] : List PageSpec) Pdf.new).1).1.object_offsets.get? 1
        = some 77) ∧
    (0 : Int) ≤ 77 :=
  ⟨⟨by decide, by decide⟩,
    (C7_finish_assertions []).2.2.2 1 77 (by decide) (by decide)⟩

set_option maxRecDepth 20000 in
/-- Witness for C10 at a concrete two-page document and k = 1: the second
page object (id 8) referencing content object 6 occurs in the output. -/
theorem C10_id_arithmetic_witness :
    1 < ([⟨200, 100, []⟩, ⟨300, 150, []⟩] : List PageSpec).length ∧
    ∃ j, bytesAt (runPages [⟨200, 100, []⟩, ⟨300, 150, []⟩] Pdf.new).1.output
      (pageObjBytes (3 * 1 + 5) 300 150 (3 * 1 + 5 - 2)) j :=
  ⟨by decide, (C10_id_arithmetic [⟨200, 100, []⟩, ⟨300, 150, []⟩]).2.2.2 1 (by decide)⟩
